import Mathlib

/-!
# Verification of the strategy recommendation engine (`src/tools/strategy.py`)

Shallow embedding of `StrategyRecommendationTool`: the static strategy
catalog, the selector `_get_strategies_by_objective`, the implementation
planner `_generate_implementation_plan`, the outcome estimator
`_generate_expected_outcomes`, the risk assessor `_generate_risk_assessment`
and the budget allocator `_generate_budget_allocation`, together with the
entry point `_run`.

Python integers are modelled as `Int` (with `Int.fdiv` for Python's floor
division `//` and `Int.emod` for `%`); Python float arithmetic in the budget
allocator is modelled exactly over `ℚ`, with Python 3's `round`
(round-half-to-even) modelled by `pyRound`.  Python strings are Lean
`String`s; the substring test `a in b` is `containsStr`.
-/

/-- Whether the character list `n` is a prefix of `h` (Boolean). -/
def startsWithL : List Char → List Char → Bool
  | [], _ => true
  | _ :: _, [] => false
  | a :: as, b :: bs => a = b && startsWithL as bs

/-- Whether the character list `n` occurs contiguously inside `h` (Boolean). -/
def containsL (n : List Char) : List Char → Bool
  | [] => startsWithL n []
  | h :: hs => startsWithL n (h :: hs) || containsL n hs

/-- Python's substring test `needle in hay`. -/
def containsStr (needle hay : String) : Bool :=
  containsL needle.data hay.data

/-- Python 3 `round` on an exact rational: round half to even. -/
def pyRound (q : ℚ) : ℤ :=
  let f : ℤ := ⌊q⌋
  let frac : ℚ := q - f
  if frac < 1 / 2 then f
  else if 1 / 2 < frac then f + 1
  else if Int.emod f 2 = 0 then f else f + 1

/-- A catalog entry of `strategy_templates`: a strategy template with its
matching metadata (`suitable_for` segment tags and `time_horizon` tags). -/
structure Template where
  strategy : String
  description : String
  tactics : List String
  suitable_for : List String
  time_horizon : List String
deriving DecidableEq, Repr, Inhabited

/-- A selected strategy: a template stripped of its matching metadata
(the `strategy_copy` dict built by `_get_strategies_by_objective`). -/
structure Strategy where
  strategy : String
  description : String
  tactics : List String
deriving DecidableEq, Repr, Inhabited

/-- `strategy_copy`: drop `suitable_for` and `time_horizon`. -/
def stripT (t : Template) : Strategy :=
  ⟨t.strategy, t.description, t.tactics⟩

/-- The static `strategy_templates` dict of `_get_strategies_by_objective`,
as an insertion-ordered association list. -/
def strategy_templates : List (String × List Template) :=
  [("increase_market_share",
    [⟨"Competitive Pricing Strategy",
      "Implement competitive pricing to attract customers from competitors.",
      ["Conduct comprehensive pricing analysis",
       "Identify price elasticity in target segments",
       "Develop tiered pricing options",
       "Implement strategic discounting for new customers"],
      ["price_sensitive", "b2c", "retail", "e_commerce"],
      ["short_term", "medium_term"]⟩,
     ⟨"Product Differentiation",
      "Enhance product features to stand out from competitors.",
      ["Conduct feature gap analysis against competitors",
       "Prioritize development of unique selling points",
       "Enhance product positioning",
       "Develop compelling messaging around differentiators"],
      ["premium", "b2b", "tech", "saas"],
      ["medium_term", "long_term"]⟩,
     ⟨"Market Expansion",
      "Enter new geographic or demographic markets.",
      ["Identify high-potential market segments",
       "Develop market entry strategy",
       "Adapt product/messaging for new markets",
       "Build channel partnerships in new regions"],
      ["established", "b2b", "b2c", "global"],
      ["medium_term", "long_term"]⟩,
     ⟨"Digital Channel Optimization",
      "Enhance digital marketing to increase reach and acquisition.",
      ["Audit current digital channel performance",
       "Reallocate budget to high-performing channels",
       "Implement advanced targeting capabilities",
       "Develop content strategy for organic growth"],
      ["digital_native", "e_commerce", "b2c", "d2c"],
      ["short_term", "medium_term"]⟩]),
   ("improve_customer_retention",
    [⟨"Customer Loyalty Program",
      "Implement or enhance loyalty program to increase retention.",
      ["Design tiered reward structure",
       "Implement personalized loyalty benefits",
       "Develop exclusive content/features for loyal customers",
       "Create community elements for customer engagement"],
      ["retail", "b2c", "subscription", "service"],
      ["short_term", "medium_term"]⟩,
     ⟨"Customer Experience Enhancement",
      "Improve customer experience across touchpoints.",
      ["Map customer journey and identify friction points",
       "Implement customer feedback loops",
       "Enhance customer support capabilities",
       "Develop proactive engagement strategies"],
      ["b2b", "b2c", "service", "subscription"],
      ["medium_term", "long_term"]⟩,
     ⟨"Value-Added Services",
      "Develop complementary services to increase customer value.",
      ["Identify high-value service opportunities",
       "Develop bundling strategies",
       "Create educational content and resources",
       "Implement success management for key accounts"],
      ["b2b", "saas", "premium", "service"],
      ["medium_term", "long_term"]⟩,
     ⟨"Personalization Strategy",
      "Implement data-driven personalization across customer interactions.",
      ["Enhance customer data collection and integration",
       "Develop personalized content strategy",
       "Implement behavioral triggers for engagement",
       "Create personalized product recommendations"],
      ["e_commerce", "b2c", "retail", "subscription"],
      ["short_term", "medium_term"]⟩]),
   ("launch_new_product",
    [⟨"Market Penetration Strategy",
      "Aggressive entry to quickly gain market share.",
      ["Competitive pricing strategy",
       "High-visibility promotional campaign",
       "Strategic partnerships for distribution",
       "Early adopter incentive program"],
      ["b2c", "tech", "startup", "consumer_goods"],
      ["short_term"]⟩,
     ⟨"Thought Leadership Campaign",
      "Establish category leadership through expertise.",
      ["Develop educational content series",
       "Secure speaking opportunities at industry events",
       "Publish original research/white papers",
       "Build relationships with industry influencers"],
      ["b2b", "saas", "professional_services", "tech"],
      ["medium_term", "long_term"]⟩,
     ⟨"Phased Rollout Strategy",
      "Controlled launch across segments to optimize product.",
      ["Identify beta testing customer segments",
       "Develop feedback collection mechanisms",
       "Create rapid iteration processes",
       "Plan phase-based expansion roadmap"],
      ["b2b", "tech", "saas", "complex_products"],
      ["medium_term"]⟩,
     ⟨"Integrated Launch Campaign",
      "Coordinated multi-channel campaign for maximum impact.",
      ["Develop unified messaging strategy",
       "Create coordinated content across channels",
       "Plan sequential reveal strategy",
       "Implement measurement framework for optimization"],
      ["b2c", "consumer_goods", "retail", "e_commerce"],
      ["short_term", "medium_term"]⟩]),
   ("increase_brand_awareness",
    [⟨"Content Marketing Strategy",
      "Build awareness through valuable content.",
      ["Develop content pillars aligned with audience interests",
       "Create multi-format content strategy",
       "Implement SEO optimization for discoverability",
       "Establish content distribution partnerships"],
      ["b2b", "b2c", "service", "thought_leadership"],
      ["medium_term", "long_term"]⟩,
     ⟨"Influencer Partnership Program",
      "Leverage influencers to expand brand reach.",
      ["Identify relevant influencers across tiers",
       "Develop authentic partnership frameworks",
       "Create co-branded content opportunities",
       "Implement performance-based compensation models"],
      ["b2c", "consumer_goods", "lifestyle", "e_commerce"],
      ["short_term", "medium_term"]⟩,
     ⟨"Community Building Initiative",
      "Create engaged community around brand values.",
      ["Develop community platform strategy",
       "Create valuable engagement opportunities",
       "Implement user-generated content program",
       "Establish ambassador program for advocates"],
      ["b2c", "lifestyle", "value_driven", "subscription"],
      ["medium_term", "long_term"]⟩,
     ⟨"Strategic PR Campaign",
      "Generate earned media coverage for brand.",
      ["Develop newsworthy storylines",
       "Build relationships with key media outlets",
       "Create press kit and supporting materials",
       "Plan staged announcement strategy"],
      ["b2b", "b2c", "launch", "corporate"],
      ["short_term", "medium_term"]⟩])]

/-- The "known" segment keywords tested in the wildcard fallback of
`_get_strategies_by_objective`. -/
def knownSegments : List String := ["b2b", "b2c", "retail", "tech"]

/-- Whether the segment contains one of the known segment keywords
(`any(segment in market_segment for segment in ["b2b","b2c","retail","tech"])`). -/
def hasKnownKeyword (seg : String) : Bool :=
  knownSegments.any fun k => containsStr k seg

/-- The catalog list for an objective key (`strategy_templates[obj]`). -/
def catalogOf (obj : String) : List Template :=
  (List.lookup obj strategy_templates).getD []

/-- The objective actually used: unknown objectives fall back to
`"increase_market_share"`. -/
def effectiveObjective (obj : String) : String :=
  if (List.lookup obj strategy_templates).isSome then obj
  else "increase_market_share"

/-- Whether a horizon-eligible template's segment tags match the segment:
some `suitable_for` tag is a substring of the (normalized) segment. -/
def segmentMatch (t : Template) (seg : String) : Bool :=
  t.suitable_for.any fun s => containsStr s seg

/-- The `filtered_strategies` accumulation loop of
`_get_strategies_by_objective`: templates eligible for the horizon whose
segment tags match the segment, or (when the segment contains none of the
known keywords) any horizon-eligible template, stripped in catalog order. -/
def filteredStrategies (obj seg hor : String) : List Strategy :=
  (catalogOf (effectiveObjective obj)).filterMap fun t =>
    if t.time_horizon.contains hor then
      if segmentMatch t seg || !hasKnownKeyword seg then
        some (stripT t)
      else none
    else none

/-- `_get_strategies_by_objective`: the filtered strategies, falling back to
the first two catalog templates when the filter selects nothing. -/
def getStrategiesByObjective (obj seg hor : String) : List Strategy :=
  if filteredStrategies obj seg hor = [] ∧ catalogOf (effectiveObjective obj) ≠ [] then
    ((catalogOf (effectiveObjective obj)).take 2).map stripT
  else filteredStrategies obj seg hor

/-- A milestone of an implementation-plan phase. -/
structure Milestone where
  milestone : String
  timeline : ℤ
  dependencies : List String
deriving DecidableEq, Repr, Inhabited

/-- A phase of an implementation plan. -/
structure Phase where
  phase : String
  start : ℤ
  «end» : ℤ
  key_milestones : List Milestone
deriving DecidableEq, Repr, Inhabited

/-- An implementation plan. -/
structure Plan where
  timeline_unit : String
  total_duration : ℤ
  phases : List Phase
deriving DecidableEq, Repr, Inhabited

/-- The `timeline_unit` fixed by the time horizon. -/
def planUnit (hor : String) : String :=
  if hor = "short_term" then "weeks"
  else if hor = "medium_term" then "months"
  else "quarters"

/-- The `total_duration` fixed by the time horizon: 12 weeks, 12 months,
or (for anything else) 8 quarters. -/
def planTotal (hor : String) : ℤ :=
  if hor = "short_term" then 12
  else if hor = "medium_term" then 12
  else 8

/-- `phase_duration = max(2, total_duration // len(strategies) + 1)`. -/
def phaseDur (total : ℤ) (n : ℕ) : ℤ :=
  max 2 (Int.fdiv total n + 1)

/-- `start_time = max(0, i * phase_duration - 1)` for phase index `i`. -/
def phaseStart (pd : ℤ) (i : ℕ) : ℤ :=
  max 0 (i * pd - 1)

/-- `end_time = min(total_duration, start_time + phase_duration)`. -/
def phaseEnd (total pd : ℤ) (i : ℕ) : ℤ :=
  min total (phaseStart pd i + pd)

/-- `milestone_time = start + (j * (end - start)) // (len(tactics) + 1)`. -/
def milestoneTime (st en : ℤ) (tacCount : ℕ) (j : ℕ) : ℤ :=
  st + Int.fdiv ((j : ℤ) * (en - st)) (tacCount + 1)

/-- The milestone built for the `j`-th tactic of a phase. -/
def mkMilestone (st en : ℤ) (tacCount : ℕ) (j : ℕ) (tac : String) : Milestone :=
  { milestone := "Complete " ++ tac
    timeline := milestoneTime st en tacCount j
    dependencies := if j = 0 then [] else ["Milestone " ++ toString j] }

/-- The phase built for the `i`-th strategy. -/
def mkPhase (total pd : ℤ) (i : ℕ) (s : Strategy) : Phase :=
  { phase := "Phase " ++ toString (i + 1) ++ ": " ++ s.strategy
    start := phaseStart pd i
    «end» := phaseEnd total pd i
    key_milestones := s.tactics.enum.map fun jt =>
      mkMilestone (phaseStart pd i) (phaseEnd total pd i) s.tactics.length jt.1 jt.2 }

/-- `_generate_implementation_plan`. -/
def generateImplementationPlan (strategies : List Strategy) (hor : String) : Plan :=
  { timeline_unit := planUnit hor
    total_duration := planTotal hor
    phases :=
      if 0 < strategies.length then
        strategies.enum.map fun is =>
          mkPhase (planTotal hor) (phaseDur (planTotal hor) strategies.length) is.1 is.2
      else [] }

/-- The `estimated_impact` sub-record of the expected outcomes. -/
structure EstimatedImpact where
  overall_impact : String
  timeline_to_results : String
  key_performance_indicators : List String
  success_criteria : String
deriving DecidableEq, Repr, Inhabited

/-- The expected-outcomes record. -/
structure Outcomes where
  primary_metrics : List String
  secondary_metrics : List String
  estimated_impact : EstimatedImpact
deriving DecidableEq, Repr, Inhabited

/-- The `metrics_by_objective` table (primary, secondary). -/
def metricsByObjective : List (String × (List String × List String)) :=
  [("increase_market_share",
    (["Market share percentage", "New customer acquisition", "Competitive win rate"],
     ["Share of voice", "Brand consideration", "Product adoption rate"])),
   ("improve_customer_retention",
    (["Customer retention rate", "Churn rate", "Customer lifetime value"],
     ["Net promoter score", "Repeat purchase rate", "Account expansion rate"])),
   ("launch_new_product",
    (["Product adoption rate", "Revenue from new product", "Market penetration"],
     ["Product awareness", "Feature usage", "Cross-sell rate"])),
   ("increase_brand_awareness",
    (["Brand awareness", "Share of voice", "Brand search volume"],
     ["Social media engagement", "Press mentions", "Website traffic"]))]

/-- The `impact_ranges` table, keyed by objective then tier. -/
def impactRanges : List (String × List (String × String)) :=
  [("increase_market_share", [("low", "5-8%"), ("medium", "8-15%"), ("high", "15-25%")]),
   ("improve_customer_retention", [("low", "10-15%"), ("medium", "15-25%"), ("high", "25-40%")]),
   ("launch_new_product", [("low", "2-5%"), ("medium", "5-10%"), ("high", "10-20%")]),
   ("increase_brand_awareness", [("low", "20-30%"), ("medium", "30-50%"), ("high", "50-100%")])]

/-- The generic fallback tier table used for unknown objectives. -/
def defaultImpactRanges : List (String × String) :=
  [("low", "5-10%"), ("medium", "10-20%"), ("high", "20-30%")]

/-- Impact tier from the strategy count: `len >= 3` high, `len <= 1` low,
otherwise medium. -/
def impactLevel (strategies : List Strategy) : String :=
  if 3 ≤ strategies.length then "high"
  else if strategies.length ≤ 1 then "low"
  else "medium"

/-- The impact-range string selected for an objective and tier. -/
def impactRangeFor (obj tier : String) : String :=
  (((List.lookup obj impactRanges).getD defaultImpactRanges).lookup tier).getD ""

/-- Python `impact_range.split('-')[0]`: the part before the first `-`. -/
def splitFirst (sep : Char) (s : String) : String :=
  ⟨s.data.takeWhile fun c => c ≠ sep⟩

/-- `_get_timeline_to_results`. -/
def getTimelineToResults (obj : String) : String :=
  (List.lookup obj
    [("increase_market_share", "3-6 months for initial results, 6-12 months for full impact"),
     ("improve_customer_retention", "1-3 months for initial results, 6-9 months for full impact"),
     ("launch_new_product", "1-2 months for initial traction, 3-6 months for significant adoption"),
     ("increase_brand_awareness", "2-3 months for initial lift, 6-12 months for significant awareness increase")]).getD
    "3-6 months for initial results, 6-12 months for full impact"

/-- The objective effectively used by `_generate_expected_outcomes`: the
source reassigns `business_objective` to `"increase_market_share"` when it
is absent from `metrics_by_objective`, before the metrics, impact-range and
timeline lookups (so the generic impact-range default is never reached). -/
def outcomeObjective (obj : String) : String :=
  if (List.lookup obj metricsByObjective).isSome then obj
  else "increase_market_share"

/-- `_generate_expected_outcomes`. -/
def generateExpectedOutcomes (obj : String) (strategies : List Strategy) : Outcomes :=
  let metrics := (List.lookup (outcomeObjective obj) metricsByObjective).getD ([], [])
  let level := impactLevel strategies
  let range := impactRangeFor (outcomeObjective obj) level
  { primary_metrics := metrics.1
    secondary_metrics := metrics.2
    estimated_impact :=
      { overall_impact := "Expected " ++ level ++ " impact with " ++ range ++
          " improvement in primary metrics"
        timeline_to_results := getTimelineToResults (outcomeObjective obj)
        key_performance_indicators := metrics.1.take 2
        success_criteria := "Achieve minimum " ++ splitFirst '-' range ++
          "% improvement in primary metrics" } }

/-- The risk-assessment record: the risk list and the (insertion-ordered)
risk-to-mitigation mapping, modelled as an association list. -/
structure RiskAssessment where
  key_risks : List String
  mitigation_strategies : List (String × String)
deriving DecidableEq, Repr, Inhabited

/-- The `common_risks` table keyed by strategy name. -/
def common_risks : List (String × List String) :=
  [("Competitive Pricing Strategy",
    ["Potential margin erosion", "Competitive retaliation", "Price war escalation"]),
   ("Product Differentiation",
    ["Feature development delays", "Insufficient differentiation", "High development costs"]),
   ("Market Expansion",
    ["Cultural/regional adaptation challenges", "Regulatory compliance issues",
     "Resource dispersion"]),
   ("Digital Channel Optimization",
    ["Rising acquisition costs", "Algorithm changes affecting performance",
     "Technical implementation challenges"]),
   ("Customer Loyalty Program",
    ["Low adoption rates", "Reward cost management", "Program complexity"]),
   ("Market Penetration Strategy",
    ["Higher than expected acquisition costs", "Slower than projected adoption",
     "Supply chain constraints"]),
   ("Content Marketing Strategy",
    ["Content production resource constraints", "Difficulty measuring direct ROI",
     "Audience building timeline"])]

/-- Append `r` to `acc` unless it is already present (the
`if risk not in key_risks: append` pattern). -/
def dedupAppend (acc : List String) (r : String) : List String :=
  if r ∈ acc then acc else acc ++ [r]

/-- The accumulated risk list before truncation: common risks of each
strategy (by name), then one risk per caller-supplied challenge, all
de-duplicated in insertion order. -/
def accumRisks (strategies : List Strategy) (challenges : List String) : List String :=
  let fromStrategies := strategies.foldl
    (fun acc s =>
      match List.lookup s.strategy common_risks with
      | some risks => risks.foldl dedupAppend acc
      | none => acc)
    []
  challenges.foldl (fun acc c => dedupAppend acc ("Existing challenge: " ++ c))
    fromStrategies

/-- Python `str.lower` (character-wise). -/
def pyLower (s : String) : String := ⟨s.data.map Char.toLower⟩

/-- The fixed-priority keyword chain selecting one mitigation text per risk. -/
def mitigationFor (risk : String) : String :=
  let r := pyLower risk
  if containsStr "pricing" r || containsStr "margin" r then
    "Implement value-based pricing strategy with tiered options to protect margins"
  else if containsStr "competitive" r || containsStr "retaliation" r then
    "Develop scenario planning for competitive responses; prepare contingency plans"
  else if containsStr "delay" r || containsStr "timeline" r then
    "Implement agile methodology with regular milestones and flexible resource allocation"
  else if containsStr "cost" r || containsStr "budget" r then
    "Establish clear budget thresholds with stage-gate approach; prioritize initiatives by ROI"
  else if containsStr "adoption" r || containsStr "engagement" r then
    "Develop staged rollout with feedback loops; create targeted incentives for early adoption"
  else if containsStr "measurement" r || containsStr "roi" r then
    "Implement comprehensive attribution model; establish proxy metrics for long-term initiatives"
  else if containsStr "resource" r then
    "Create flexible resourcing plan with external partner options; prioritize initiatives"
  else
    "Establish monitoring system with early warning indicators; create contingency plans"

/-- `_generate_risk_assessment`. -/
def generateRiskAssessment (strategies : List Strategy) (challenges : List String) :
    RiskAssessment :=
  let risks := (accumRisks strategies challenges).take 5
  { key_risks := risks
    mitigation_strategies := risks.map fun r => (r, mitigationFor r) }

/-- The budget-allocation record.  Percentage strings are kept as in the
source; the integer percentage behind each category entry is
`categoryPercents`. -/
structure BudgetAllocation where
  budget_level : String
  allocation_by_strategy : List (String × String)
  allocation_by_category : List (String × String)
deriving DecidableEq, Repr, Inhabited

/-- The five standard allocation categories, in insertion order. -/
def categories : List String :=
  ["Media & Advertising", "Content Production", "Technology & Tools",
   "Research & Analysis", "Personnel & Resources"]

/-- The category-weight vector a strategy contributes, selected by fixed
substring tests on the strategy name (vector ordered as `categories`). -/
def catWeights (name : String) : List ℤ :=
  if containsStr "Digital" name || containsStr "Campaign" name then [40, 25, 15, 10, 10]
  else if containsStr "Content" name then [20, 45, 10, 10, 15]
  else if containsStr "Product" name then [15, 20, 25, 20, 20]
  else if containsStr "Loyalty" name || containsStr "Experience" name then [10, 15, 35, 15, 25]
  else [25, 20, 20, 15, 20]

/-- The running `category_allocations` totals (ordered as `categories`). -/
def categoryAlloc (strategies : List Strategy) : List ℤ :=
  strategies.foldl (fun acc s => List.zipWith (· + ·) acc (catWeights s.strategy))
    [0, 0, 0, 0, 0]

/-- The integer percentage for each category after normalization:
`int(round(allocation / total_allocation * 100))`. -/
def categoryPercents (strategies : List Strategy) : List ℤ :=
  let alloc := categoryAlloc strategies
  let total := alloc.sum
  alloc.map fun a : ℤ => pyRound (((a : ℤ) : ℚ) / ((total : ℤ) : ℚ) * 100)

/-- The per-strategy weight before normalization:
`max(0.3, 1.0 - 0.15 * i)`. -/
def strategyWeight (i : ℕ) : ℚ := max (3 / 10) (1 - 15 / 100 * i)

/-- The per-strategy integer percentage after normalization by the weight
total: `int(round(weights[i] * 100))`. -/
def strategyPercent (n : ℕ) (i : ℕ) : ℤ :=
  let totalW := ((List.range n).map strategyWeight).sum
  pyRound (strategyWeight i / totalW * 100)

/-- `_generate_budget_allocation`. -/
def generateBudgetAllocation (strategies : List Strategy) (budget : String) :
    BudgetAllocation :=
  { budget_level := budget
    allocation_by_strategy :=
      strategies.enum.map fun is =>
        (is.2.strategy, toString (strategyPercent strategies.length is.1) ++ "%")
    allocation_by_category :=
      if strategies ≠ [] then
        List.zipWith (fun c p => (c, toString p ++ "%")) categories
          (categoryPercents strategies)
      else [] }

/-- The assembled recommendation result of `_run`. -/
structure RecommendResult where
  business_objective : String
  market_segment : String
  time_horizon : String
  available_budget : Option String
  recommended_strategies : List Strategy
  implementation_plan : Plan
  expected_outcomes : Outcomes
  risk_assessment : RiskAssessment
  budget_allocation : Option BudgetAllocation
deriving DecidableEq, Repr

/-- Python string truthiness of an `Optional[str]`: `None` and `""` are
falsy, everything else truthy. -/
def pyTruthy : Option String → Bool
  | none => false
  | some s => !(s = "")

/-- Input normalization: `lower()` then `replace(" ", "_")`. -/
def pyNormalize (s : String) : String :=
  ⟨(pyLower s).data.map fun c => if c = ' ' then '_' else c⟩

/-- `StrategyRecommendationTool._run`: normalize the inputs, select
strategies, and assemble the plan, outcomes, risk assessment and (when the
budget string is truthy) the budget allocation. -/
def recommend (business_objective market_segment : String)
    (time_horizon : String) (available_budget : Option String)
    (current_challenges : Option (List String)) : RecommendResult :=
  let challenges := current_challenges.getD []
  let obj := pyNormalize business_objective
  let seg := pyNormalize market_segment
  let hor := pyNormalize time_horizon
  let strategies := getStrategiesByObjective obj seg hor
  { business_objective := obj
    market_segment := seg
    time_horizon := hor
    available_budget := available_budget
    recommended_strategies := strategies
    implementation_plan := generateImplementationPlan strategies hor
    expected_outcomes := generateExpectedOutcomes obj strategies
    risk_assessment := generateRiskAssessment strategies challenges
    budget_allocation :=
      if pyTruthy available_budget then
        some (generateBudgetAllocation strategies (available_budget.getD ""))
      else none }

/-- The horizon-eligible templates of an objective's (effective) catalog
entry: those whose `time_horizon` tags contain the horizon. -/
def eligibleTemplates (obj hor : String) : List Template :=
  (catalogOf (effectiveObjective obj)).filter fun t => t.time_horizon.contains hor

/-- Modelled from the spec's selection policy (for comparison with
`getStrategiesByObjective`): the horizon-eligible templates whose segment
tags match the segment, in catalog order, stripped to selected strategies. -/
def specMatched (obj seg hor : String) : List Strategy :=
  ((eligibleTemplates obj hor).filter fun t => segmentMatch t seg).map stripT

/-- All horizon-eligible templates, in catalog order, stripped to selected
strategies (the spec's wildcard fallback result). -/
def specEligible (obj hor : String) : List Strategy :=
  (eligibleTemplates obj hor).map stripT

/-- A list of six identical strategies (more than the catalog can ever
select), used to exercise the planner on an oversized strategy list. -/
def sixStrategies : List Strategy :=
  List.replicate 6 ⟨"Strategy", "Description", ["t1", "t2", "t3", "t4"]⟩

/-- The "Competitive Pricing Strategy" entry as selected (metadata
stripped). -/
def samplePricing : Strategy :=
  stripT (((List.lookup "increase_market_share" strategy_templates).getD []).getD 0 default)

/-- The implementation plan generated by the pipeline of `_run`: the plan
built from the selector's output for the given (normalized) objective,
segment and horizon. -/
def pipelinePlan (obj seg hor : String) : Plan :=
  generateImplementationPlan (getStrategiesByObjective obj seg hor) hor

/-! ## Shared lemmas about the catalog and the selector -/

lemma lookup_mem_snd {α β : Type} [BEq α] {a : α} {b : β} :
    ∀ {l : List (α × β)}, List.lookup a l = some b → b ∈ l.map Prod.snd := by
  intro l
  induction l with
  | nil => simp [List.lookup]
  | cons p ps ih =>
    intro h
    rw [List.lookup] at h
    split at h
    · simp [Option.some.inj h]
    · exact List.mem_cons_of_mem _ (ih h)

lemma templates_snd_length : ∀ v ∈ strategy_templates.map Prod.snd, v.length = 4 := by
  decide

lemma catalog_effective_length (obj : String) :
    (catalogOf (effectiveObjective obj)).length = 4 := by
  unfold effectiveObjective
  rcases hE : List.lookup obj strategy_templates with _ | l
  · show (catalogOf "increase_market_share").length = 4
    decide
  · simp only [Option.isSome_some, if_pos]
    unfold catalogOf
    rw [hE, Option.getD_some]
    exact templates_snd_length l (lookup_mem_snd hE)

lemma selector_len_bounds (obj seg hor : String) :
    0 < (getStrategiesByObjective obj seg hor).length ∧
    (getStrategiesByObjective obj seg hor).length ≤
      (catalogOf (effectiveObjective obj)).length := by
  have hA : catalogOf (effectiveObjective obj) ≠ [] := by
    intro h
    have := catalog_effective_length obj
    rw [h] at this
    simp at this
  unfold getStrategiesByObjective
  split
  · constructor
    · simp only [List.length_map, List.length_take]
      have : 0 < (catalogOf (effectiveObjective obj)).length :=
        List.length_pos.mpr hA
      omega
    · simp only [List.length_map, List.length_take]
      omega
  · rename_i hcond
    rw [not_and_or] at hcond
    rcases hcond with hne | hall
    · refine ⟨List.length_pos.mpr hne, ?_⟩
      exact List.length_filterMap_le _ _
    · exact absurd hA (by simpa using hall)

lemma selector_len_le_four (obj seg hor : String) :
    (getStrategiesByObjective obj seg hor).length ≤ 4 := by
  have h := (selector_len_bounds obj seg hor).2
  rw [catalog_effective_length] at h
  exact h

/-- C4: for every supported objective and arbitrary segment and horizon
strings, the selector returns a non-empty list whose length never exceeds
the number of templates in that objective's catalog entry. -/
theorem selector_nonempty_and_bounded (obj seg hor : String)
    (h : obj ∈ ["increase_market_share", "improve_customer_retention",
                "launch_new_product", "increase_brand_awareness"]) :
    0 < (getStrategiesByObjective obj seg hor).length ∧
    (getStrategiesByObjective obj seg hor).length ≤ (catalogOf obj).length := by
  have heff : effectiveObjective obj = obj := by
    fin_cases h <;> rfl
  have := selector_len_bounds obj seg hor
  rwa [heff] at this

/-- Witness for C4 at a concrete supported objective. -/
theorem selector_nonempty_and_bounded_witness :
    0 < (getStrategiesByObjective "improve_customer_retention" "subscription"
          "short_term").length ∧
    (getStrategiesByObjective "improve_customer_retention" "subscription"
        "short_term").length ≤ (catalogOf "improve_customer_retention").length :=
  selector_nonempty_and_bounded "improve_customer_retention" "subscription"
    "short_term" (by decide)

/-! ## The selection policy (C2) -/

lemma filterMap_ite_eq_filter_map (p q : Template → Bool) (l : List Template) :
    (l.filterMap fun t => if p t then (if q t then some (stripT t) else none) else none)
      = (l.filter fun t => p t && q t).map stripT := by
  induction l with
  | nil => rfl
  | cons t ts ih =>
    cases hp : p t <;> cases hq : q t <;>
      simp [List.filterMap_cons, List.filter_cons, hp, hq, ih]

lemma filteredStrategies_of_keyword (obj seg hor : String)
    (h : hasKnownKeyword seg = true) :
    filteredStrategies obj seg hor = specMatched obj seg hor := by
  unfold filteredStrategies specMatched eligibleTemplates
  rw [filterMap_ite_eq_filter_map (fun t => t.time_horizon.contains hor)
        (fun t => segmentMatch t seg || !hasKnownKeyword seg)]
  rw [List.filter_filter]
  simp [h, Bool.and_comm]

lemma filteredStrategies_of_no_keyword (obj seg hor : String)
    (h : hasKnownKeyword seg = false) :
    filteredStrategies obj seg hor = specEligible obj hor := by
  unfold filteredStrategies specEligible eligibleTemplates
  rw [filterMap_ite_eq_filter_map (fun t => t.time_horizon.contains hor)
        (fun t => segmentMatch t seg || !hasKnownKeyword seg)]
  simp [h]

/-- C2 (amended): when the segment contains one of the known keywords
(`b2b`, `b2c`, `retail`, `tech`) and at least one horizon-eligible template
matches it, the selector returns exactly the matched templates in catalog
order.  When the segment contains none of the keywords, the filter keeps
every horizon-eligible template regardless of matches: the selector returns
all of them when at least one template is horizon-eligible, and otherwise
falls back to the first two templates of the objective's catalog entry. -/
theorem selector_policy_amended (obj seg hor : String) :
    (hasKnownKeyword seg = true → specMatched obj seg hor ≠ [] →
      getStrategiesByObjective obj seg hor = specMatched obj seg hor) ∧
    (hasKnownKeyword seg = false →
      (specEligible obj hor ≠ [] →
        getStrategiesByObjective obj seg hor = specEligible obj hor) ∧
      (specEligible obj hor = [] →
        getStrategiesByObjective obj seg hor =
          ((catalogOf (effectiveObjective obj)).take 2).map stripT)) := by
  have hcat : catalogOf (effectiveObjective obj) ≠ [] := by
    intro h
    have := catalog_effective_length obj
    rw [h] at this
    simp at this
  constructor
  · intro hk hne
    unfold getStrategiesByObjective
    rw [filteredStrategies_of_keyword obj seg hor hk, if_neg]
    simp [hne]
  · intro hk
    constructor
    · intro hne
      unfold getStrategiesByObjective
      rw [filteredStrategies_of_no_keyword obj seg hor hk, if_neg]
      simp [hne]
    · intro hempty
      unfold getStrategiesByObjective
      rw [filteredStrategies_of_no_keyword obj seg hor hk, if_pos ⟨hempty, hcat⟩]

/-- Witness for C2 (amended): all three branches at concrete inputs —
keyword match, keyword-free wildcard, and keyword-free empty-eligible
fallback (unrecognized horizon). -/
theorem selector_policy_amended_witness :
    getStrategiesByObjective "increase_market_share" "b2c" "short_term" =
      specMatched "increase_market_share" "b2c" "short_term" ∧
    getStrategiesByObjective "launch_new_product" "enterprise_saas" "medium_term" =
      specEligible "launch_new_product" "medium_term" ∧
    getStrategiesByObjective "launch_new_product" "premium" "annual" =
      ((catalogOf (effectiveObjective "launch_new_product")).take 2).map stripT :=
  ⟨(selector_policy_amended "increase_market_share" "b2c" "short_term").1
      (by decide) (by decide),
   ((selector_policy_amended "launch_new_product" "enterprise_saas" "medium_term").2
      (by decide)).1 (by decide),
   ((selector_policy_amended "launch_new_product" "premium" "annual").2
      (by decide)).2 (by decide)⟩

/-- C2 counterexample: for objective `increase_market_share`, segment
`premium` and horizon `medium_term`, exactly one horizon-eligible template
matches the segment, yet the selector does not return just the matched
templates (the segment contains no known keyword, so every horizon-eligible
template is returned). -/
theorem selector_policy_counterexample :
    specMatched "increase_market_share" "premium" "medium_term" ≠ [] ∧
    getStrategiesByObjective "increase_market_share" "premium" "medium_term" ≠
      specMatched "increase_market_share" "premium" "medium_term" := by
  constructor <;> decide

/-! ## The implementation plan (C3, C5, C10) -/

lemma planTotal_cases (hor : String) : planTotal hor = 12 ∨ planTotal hor = 8 := by
  unfold planTotal
  split_ifs <;> simp

lemma phase_numeric :
    ∀ total ∈ ([12, 8] : List ℤ), ∀ n ∈ ([1, 2, 3, 4, 5] : List ℕ), ∀ i ∈ List.range 5,
      (i < n →
        0 ≤ phaseStart (phaseDur total n) i ∧
        phaseStart (phaseDur total n) i ≤ phaseEnd total (phaseDur total n) i ∧
        phaseEnd total (phaseDur total n) i ≤ total) ∧
      (i + 1 < n →
        phaseStart (phaseDur total n) i ≤ phaseStart (phaseDur total n) (i + 1) ∧
        phaseEnd total (phaseDur total n) i ≤ phaseEnd total (phaseDur total n) (i + 1)) := by
  decide

lemma plan_phases_length (strategies : List Strategy) (hor : String) :
    (generateImplementationPlan strategies hor).phases.length = strategies.length := by
  unfold generateImplementationPlan
  split
  · simp [List.enum_length]
  · rename_i h
    simp only [List.length_nil]
    omega

lemma plan_phases_getElem (strategies : List Strategy) (hor : String) (i : ℕ)
    (hi : i < (generateImplementationPlan strategies hor).phases.length) :
    (generateImplementationPlan strategies hor).phases[i] =
      mkPhase (planTotal hor) (phaseDur (planTotal hor) strategies.length) i
        (strategies.get ⟨i, by rwa [plan_phases_length] at hi⟩) := by
  have hn : 0 < strategies.length := by
    rw [plan_phases_length] at hi
    omega
  have hi' : i < strategies.length := by rwa [plan_phases_length] at hi
  simp only [generateImplementationPlan, if_pos hn]
  rw [List.getElem_map, List.getElem_enum]
  rfl

/-- C3 (amended): for every strategy list of at most 5 strategies (the
selector never produces more than 4) and every horizon, the plan's
total_duration is the fixed table value (short_term 12, medium_term 12,
otherwise 8), and every phase satisfies
0 ≤ start ≤ end ≤ total_duration, with start and end offsets
non-decreasing across consecutive phases.  (For 6 or more strategies the
bounds fail; see the counterexample.) -/
theorem plan_duration_and_phase_bounds (strategies : List Strategy) (hor : String)
    (hlen : strategies.length ≤ 5) :
    ((hor = "short_term" →
        (generateImplementationPlan strategies hor).total_duration = 12) ∧
     (hor = "medium_term" →
        (generateImplementationPlan strategies hor).total_duration = 12) ∧
     (hor ≠ "short_term" → hor ≠ "medium_term" →
        (generateImplementationPlan strategies hor).total_duration = 8)) ∧
    ∀ i (hi : i < (generateImplementationPlan strategies hor).phases.length),
      (0 ≤ ((generateImplementationPlan strategies hor).phases[i]).start ∧
       ((generateImplementationPlan strategies hor).phases[i]).start ≤
         ((generateImplementationPlan strategies hor).phases[i]).«end» ∧
       ((generateImplementationPlan strategies hor).phases[i]).«end» ≤
         (generateImplementationPlan strategies hor).total_duration) ∧
      ∀ (hi1 : i + 1 < (generateImplementationPlan strategies hor).phases.length),
        ((generateImplementationPlan strategies hor).phases[i]).start ≤
          ((generateImplementationPlan strategies hor).phases[i + 1]).start ∧
        ((generateImplementationPlan strategies hor).phases[i]).«end» ≤
          ((generateImplementationPlan strategies hor).phases[i + 1]).«end» := by
  constructor
  · refine ⟨fun h => ?_, fun h => ?_, fun h1 h2 => ?_⟩ <;>
      simp [generateImplementationPlan, planTotal, *]
  · intro i hi
    have hi' : i < strategies.length := by rwa [plan_phases_length] at hi
    have hn : 0 < strategies.length := by omega
    have htot : (generateImplementationPlan strategies hor).total_duration =
        planTotal hor := rfl
    have htl : planTotal hor ∈ ([12, 8] : List ℤ) := by
      simpa using planTotal_cases hor
    have hnl : strategies.length ∈ ([1, 2, 3, 4, 5] : List ℕ) := by
      simp only [List.mem_cons, List.not_mem_nil, or_false]
      omega
    have hil : i ∈ List.range 5 := by
      rw [List.mem_range]
      omega
    have key := phase_numeric (planTotal hor) htl strategies.length hnl i hil
    constructor
    · rw [plan_phases_getElem strategies hor i hi, htot]
      simpa [mkPhase] using key.1 hi'
    · intro hi1
      have hi1' : i + 1 < strategies.length := by
        rwa [plan_phases_length] at hi1
      rw [plan_phases_getElem strategies hor i hi,
        plan_phases_getElem strategies hor (i + 1) hi1]
      simpa [mkPhase] using key.2 hi1'

/-- Witness for C3 (amended) at one selected strategy and `short_term`:
total duration 12 and in-range first phase. -/
theorem plan_duration_and_phase_bounds_witness :
    (generateImplementationPlan [samplePricing] "short_term").total_duration = 12 ∧
    (0 ≤ ((generateImplementationPlan [samplePricing] "short_term").phases.get
          ⟨0, by decide⟩).start ∧
     ((generateImplementationPlan [samplePricing] "short_term").phases.get
          ⟨0, by decide⟩).start ≤
       ((generateImplementationPlan [samplePricing] "short_term").phases.get
          ⟨0, by decide⟩).«end» ∧
     ((generateImplementationPlan [samplePricing] "short_term").phases.get
          ⟨0, by decide⟩).«end» ≤
       (generateImplementationPlan [samplePricing] "short_term").total_duration) :=
  ⟨(plan_duration_and_phase_bounds [samplePricing] "short_term" (by decide)).1.1 rfl,
   ((plan_duration_and_phase_bounds [samplePricing] "short_term" (by decide)).2 0
      (by decide)).1⟩

/-- C3 counterexample: on a list of six strategies with horizon
`short_term`, the sixth phase starts at offset 14, strictly after both its
own end offset (12) and the total duration (12) — `start ≤ end ≤
total_duration` fails. -/
theorem plan_phase_bounds_counterexample :
    ((generateImplementationPlan sixStrategies "short_term").phases.getD 5
        default).start = 14 ∧
    ((generateImplementationPlan sixStrategies "short_term").phases.getD 5
        default).«end» = 12 ∧
    (generateImplementationPlan sixStrategies "short_term").total_duration = 12 ∧
    ¬(((generateImplementationPlan sixStrategies "short_term").phases.getD 5
        default).start ≤
      ((generateImplementationPlan sixStrategies "short_term").phases.getD 5
        default).«end») := by
  refine ⟨by decide, by decide, by decide, by decide⟩

lemma milestones_length (total pd : ℤ) (i : ℕ) (s : Strategy) :
    (mkPhase total pd i s).key_milestones.length = s.tactics.length := by
  simp [mkPhase, List.enum_length]

lemma milestones_getElem (total pd : ℤ) (i : ℕ) (s : Strategy) (j : ℕ)
    (hj : j < (mkPhase total pd i s).key_milestones.length) :
    (mkPhase total pd i s).key_milestones[j] =
      mkMilestone (phaseStart pd i) (phaseEnd total pd i) s.tactics.length j
        (s.tactics.get ⟨j, by rwa [milestones_length] at hj⟩) := by
  simp only [mkPhase]
  rw [List.getElem_map, List.getElem_enum]
  rfl

lemma milestoneTime_bounds (st en : ℤ) (hse : st ≤ en) (T j : ℕ) (hj : j < T) :
    st ≤ milestoneTime st en T j ∧ milestoneTime st en T j ≤ en := by
  unfold milestoneTime
  have hT : (0 : ℤ) < (T : ℤ) + 1 := by positivity
  have hfe : Int.fdiv ((j : ℤ) * (en - st)) ((T : ℤ) + 1) =
      ((j : ℤ) * (en - st)) / ((T : ℤ) + 1) :=
    Int.fdiv_eq_ediv _ (by omega)
  have hnum : (0 : ℤ) ≤ (j : ℤ) * (en - st) :=
    mul_nonneg (by positivity) (by omega)
  constructor
  · have h0 : (0 : ℤ) ≤ ((j : ℤ) * (en - st)) / ((T : ℤ) + 1) :=
      Int.ediv_nonneg hnum (le_of_lt hT)
    rw [hfe]
    omega
  · have hle : (j : ℤ) * (en - st) ≤ ((T : ℤ) + 1) * (en - st) := by
      have hjT : (j : ℤ) ≤ (T : ℤ) + 1 := by exact_mod_cast Nat.le_succ_of_le hj.le
      exact mul_le_mul_of_nonneg_right hjT (by omega)
    have h1 : ((j : ℤ) * (en - st)) / ((T : ℤ) + 1) ≤
        (((T : ℤ) + 1) * (en - st)) / ((T : ℤ) + 1) :=
      Int.ediv_le_ediv hT hle
    have h2 : (((T : ℤ) + 1) * (en - st)) / ((T : ℤ) + 1) = en - st :=
      Int.mul_ediv_cancel_left _ (by omega)
    rw [hfe]
    omega

lemma milestoneTime_mono (st en : ℤ) (hse : st ≤ en) (T j : ℕ) :
    milestoneTime st en T j ≤ milestoneTime st en T (j + 1) := by
  unfold milestoneTime
  have hT : (0 : ℤ) < (T : ℤ) + 1 := by positivity
  have hfe1 : Int.fdiv ((j : ℤ) * (en - st)) ((T : ℤ) + 1) =
      ((j : ℤ) * (en - st)) / ((T : ℤ) + 1) :=
    Int.fdiv_eq_ediv _ (by omega)
  have hfe2 : Int.fdiv (((j : ℕ) + 1 : ℕ) * (en - st)) ((T : ℤ) + 1) =
      (((j : ℕ) + 1 : ℕ) * (en - st)) / ((T : ℤ) + 1) :=
    Int.fdiv_eq_ediv _ (by omega)
  have hle : (j : ℤ) * (en - st) ≤ ((j : ℕ) + 1 : ℕ) * (en - st) := by
    push_cast
    nlinarith [sub_nonneg.mpr hse]
  have h1 : ((j : ℤ) * (en - st)) / ((T : ℤ) + 1) ≤
      (((j : ℕ) + 1 : ℕ) * (en - st)) / ((T : ℤ) + 1) :=
    Int.ediv_le_ediv hT hle
  rw [hfe1, hfe2] at *
  omega

lemma pipeline_phaseStart_le_phaseEnd (obj seg hor : String) (i : ℕ)
    (hi' : i < (getStrategiesByObjective obj seg hor).length) :
    phaseStart (phaseDur (planTotal hor) (getStrategiesByObjective obj seg hor).length) i ≤
      phaseEnd (planTotal hor)
        (phaseDur (planTotal hor) (getStrategiesByObjective obj seg hor).length) i := by
  have hle4 := selector_len_le_four obj seg hor
  have htl : planTotal hor ∈ ([12, 8] : List ℤ) := by
    simpa using planTotal_cases hor
  have hnl : (getStrategiesByObjective obj seg hor).length ∈ ([1, 2, 3, 4, 5] : List ℕ) := by
    simp only [List.mem_cons, List.not_mem_nil, or_false]
    omega
  have hil : i ∈ List.range 5 := by
    rw [List.mem_range]
    omega
  exact ((phase_numeric (planTotal hor) htl _ hnl i hil).1 hi').2.1

/-- C5: in every phase of every implementation plan generated by the
pipeline, the first milestone has an empty dependency list, every later
milestone (index `j`, 0-based) has exactly the dependency
`"Milestone j"` — a 1-based reference to its immediately preceding
milestone — and every milestone's timeline offset lies within the phase's
`[start, end]` window. -/
theorem milestone_deps_and_window (obj seg hor : String) (i : ℕ)
    (hi : i < (pipelinePlan obj seg hor).phases.length) (j : ℕ)
    (hj : j < ((pipelinePlan obj seg hor).phases[i]).key_milestones.length) :
    (((pipelinePlan obj seg hor).phases[i]).key_milestones[j]).dependencies =
      (if j = 0 then ([] : List String) else ["Milestone " ++ toString j]) ∧
    ((pipelinePlan obj seg hor).phases[i]).start ≤
      (((pipelinePlan obj seg hor).phases[i]).key_milestones[j]).timeline ∧
    (((pipelinePlan obj seg hor).phases[i]).key_milestones[j]).timeline ≤
      ((pipelinePlan obj seg hor).phases[i]).«end» := by
  simp only [pipelinePlan] at hi hj ⊢
  have hi' : i < (getStrategiesByObjective obj seg hor).length := by
    rwa [plan_phases_length] at hi
  have hph := plan_phases_getElem (getStrategiesByObjective obj seg hor) hor i hi
  simp only [hph] at hj ⊢
  have hms := milestones_getElem _ _ _ _ j hj
  simp only [hms]
  have hjT : j < ((getStrategiesByObjective obj seg hor).get ⟨i, hi'⟩).tactics.length := by
    rwa [milestones_length] at hj
  have hse := pipeline_phaseStart_le_phaseEnd obj seg hor i hi'
  have hb := milestoneTime_bounds _ _ hse _ j hjT
  exact ⟨rfl, hb.1, hb.2⟩

/-- Witness for C5: second milestone of the first phase for
`increase_market_share` / `b2c` / `short_term`. -/
theorem milestone_deps_and_window_witness :
    (((pipelinePlan "increase_market_share" "b2c" "short_term").phases.get
        ⟨0, by decide⟩).key_milestones.get ⟨1, by decide⟩).dependencies =
      ["Milestone 1"] ∧
    ((pipelinePlan "increase_market_share" "b2c" "short_term").phases.get
        ⟨0, by decide⟩).start ≤
      (((pipelinePlan "increase_market_share" "b2c" "short_term").phases.get
        ⟨0, by decide⟩).key_milestones.get ⟨1, by decide⟩).timeline ∧
    (((pipelinePlan "increase_market_share" "b2c" "short_term").phases.get
        ⟨0, by decide⟩).key_milestones.get ⟨1, by decide⟩).timeline ≤
      ((pipelinePlan "increase_market_share" "b2c" "short_term").phases.get
        ⟨0, by decide⟩).«end» :=
  milestone_deps_and_window "increase_market_share" "b2c" "short_term" 0 (by decide)
    1 (by decide)

/-- C10: within every phase of every implementation plan generated by the
pipeline, milestone timeline offsets are monotonically non-decreasing in
tactic order. -/
theorem milestone_offsets_monotone (obj seg hor : String) (i : ℕ)
    (hi : i < (pipelinePlan obj seg hor).phases.length) (j : ℕ)
    (hj1 : j + 1 < ((pipelinePlan obj seg hor).phases[i]).key_milestones.length) :
    (((pipelinePlan obj seg hor).phases[i]).key_milestones[j]).timeline ≤
      (((pipelinePlan obj seg hor).phases[i]).key_milestones[j + 1]).timeline := by
  simp only [pipelinePlan] at hi hj1 ⊢
  have hi' : i < (getStrategiesByObjective obj seg hor).length := by
    rwa [plan_phases_length] at hi
  have hph := plan_phases_getElem (getStrategiesByObjective obj seg hor) hor i hi
  simp only [hph] at hj1 ⊢
  have hj : j < (mkPhase (planTotal hor)
      (phaseDur (planTotal hor) (getStrategiesByObjective obj seg hor).length) i
      ((getStrategiesByObjective obj seg hor).get ⟨i, hi'⟩)).key_milestones.length := by
    omega
  have hms := milestones_getElem _ _ _ _ j hj
  have hms1 := milestones_getElem _ _ _ _ (j + 1) hj1
  simp only [hms, hms1]
  have hse := pipeline_phaseStart_le_phaseEnd obj seg hor i hi'
  exact milestoneTime_mono _ _ hse _ j

/-- Witness for C10: first two milestones of the first phase for
`increase_market_share` / `b2c` / `short_term`. -/
theorem milestone_offsets_monotone_witness :
    (((pipelinePlan "increase_market_share" "b2c" "short_term").phases.get
        ⟨0, by decide⟩).key_milestones.get ⟨0, by decide⟩).timeline ≤
      (((pipelinePlan "increase_market_share" "b2c" "short_term").phases.get
        ⟨0, by decide⟩).key_milestones.get ⟨1, by decide⟩).timeline :=
  milestone_offsets_monotone "increase_market_share" "b2c" "short_term" 0
    (by decide) 0 (by decide)

/-! ## The risk assessment (C6) -/

lemma dedupAppend_nodup (acc : List String) (r : String) (h : acc.Nodup) :
    (dedupAppend acc r).Nodup := by
  unfold dedupAppend
  split
  · exact h
  · rename_i hr
    simpa [List.nodup_append] using ⟨h, hr⟩

lemma foldl_dedupAppend_nodup {α : Type} (g : α → String) :
    ∀ (l : List α) (acc : List String), acc.Nodup →
      (l.foldl (fun a c => dedupAppend a (g c)) acc).Nodup := by
  intro l
  induction l with
  | nil => exact fun _ h => h
  | cons x xs ih => exact fun acc h => ih _ (dedupAppend_nodup _ _ h)

lemma strategy_risk_fold_nodup :
    ∀ (l : List Strategy) (acc : List String), acc.Nodup →
      (l.foldl
        (fun acc s =>
          match List.lookup s.strategy common_risks with
          | some risks => risks.foldl dedupAppend acc
          | none => acc)
        acc).Nodup := by
  intro l
  induction l with
  | nil => exact fun _ h => h
  | cons s ss ih =>
    intro acc h
    refine ih _ ?_
    cases hlk : List.lookup s.strategy common_risks with
    | none => simpa [hlk] using h
    | some risks =>
      simp only [hlk]
      exact foldl_dedupAppend_nodup id risks acc h

lemma accumRisks_nodup (strategies : List Strategy) (challenges : List String) :
    (accumRisks strategies challenges).Nodup := by
  unfold accumRisks
  exact foldl_dedupAppend_nodup (fun c => "Existing challenge: " ++ c) challenges _
    (strategy_risk_fold_nodup strategies [] List.nodup_nil)

lemma filter_keyed_map_of_not_mem (g : String → String) (r : String) :
    ∀ l : List String, r ∉ l →
      ((l.map fun x => (x, g x)).filter fun p => p.1 == r) = [] := by
  intro l
  induction l with
  | nil => simp
  | cons x xs ih =>
    intro h
    simp only [List.mem_cons, not_or] at h
    simp [List.filter_cons, Ne.symm h.1, ih h.2]

lemma filter_keyed_map_count_one (g : String → String) (r : String) :
    ∀ l : List String, l.Nodup → r ∈ l →
      ((l.map fun x => (x, g x)).filter fun p => p.1 == r).length = 1 := by
  intro l
  induction l with
  | nil => simp
  | cons x xs ih =>
    intro hnd hmem
    rcases List.mem_cons.mp hmem with heq | hxs
    · subst heq
      have hnot : r ∉ xs := (List.nodup_cons.mp hnd).1
      simp [List.filter_cons, filter_keyed_map_of_not_mem g r xs hnot]
    · have hx : ¬(x = r) := by
        rintro rfl
        exact (List.nodup_cons.mp hnd).1 hxs
      simp [List.filter_cons, hx, ih (List.nodup_cons.mp hnd).2 hxs]

/-- C6: for every strategy list and challenge list, the risk assessment's
key_risks list has at most 5 entries, is duplicate-free, equals the first
5 entries of the insertion-ordered accumulated risk list (truncation keeps
the first 5), and every listed risk has exactly one entry in the
mitigation mapping. -/
theorem risk_assessment_invariants (strategies : List Strategy)
    (challenges : List String) :
    (generateRiskAssessment strategies challenges).key_risks.length ≤ 5 ∧
    (generateRiskAssessment strategies challenges).key_risks.Nodup ∧
    (generateRiskAssessment strategies challenges).key_risks =
      (accumRisks strategies challenges).take 5 ∧
    ∀ r ∈ (generateRiskAssessment strategies challenges).key_risks,
      ((generateRiskAssessment strategies challenges).mitigation_strategies.filter
        fun p => p.1 == r).length = 1 := by
  have hnd : (accumRisks strategies challenges).Nodup := accumRisks_nodup _ _
  have htake : ((accumRisks strategies challenges).take 5).Nodup :=
    List.Nodup.sublist (List.take_sublist 5 _) hnd
  refine ⟨?_, htake, rfl, ?_⟩
  · simp only [generateRiskAssessment, List.length_take]
    omega
  · intro r hr
    exact filter_keyed_map_count_one mitigationFor r _ htake hr

/-- Witness for C6: the pricing strategy plus one challenge; the first
accumulated risk has exactly one mitigation entry. -/
theorem risk_assessment_invariants_witness :
    ((generateRiskAssessment [samplePricing] ["supply shortage"]).mitigation_strategies.filter
      fun p => p.1 == "Potential margin erosion").length = 1 :=
  (risk_assessment_invariants [samplePricing] ["supply shortage"]).2.2.2
    "Potential margin erosion" (by decide)

/-! ## Expected outcomes (C7), determinism (C8), budget-field presence (C9) -/

/-- C7: for every objective and strategy list, the impact tier is `high`
with 3 or more strategies, `low` with at most 1, and `medium` with exactly
2; and the success-criteria text is built from the lower bound of the
selected impact-range string (the part before the first `-`) with `%`
appended.  The range is selected for the effective objective
(`outcomeObjective`): the source reassigns unknown objectives to
`increase_market_share` before the impact-range lookup. -/
theorem outcome_tier_and_success_criteria (obj : String) (strategies : List Strategy) :
    (3 ≤ strategies.length → impactLevel strategies = "high") ∧
    (strategies.length ≤ 1 → impactLevel strategies = "low") ∧
    (strategies.length = 2 → impactLevel strategies = "medium") ∧
    (generateExpectedOutcomes obj strategies).estimated_impact.success_criteria =
      "Achieve minimum " ++
        splitFirst '-' (impactRangeFor (outcomeObjective obj) (impactLevel strategies)) ++
        "% improvement in primary metrics" := by
  refine ⟨fun h => ?_, fun h => ?_, fun h => ?_, rfl⟩
  · unfold impactLevel
    rw [if_pos h]
  · unfold impactLevel
    rw [if_neg (by omega), if_pos h]
  · unfold impactLevel
    rw [if_neg (by omega), if_neg (by omega)]

/-- Witness for C7: all three tiers at concrete strategy counts. -/
theorem outcome_tier_and_success_criteria_witness :
    impactLevel [samplePricing, samplePricing, samplePricing] = "high" ∧
    impactLevel [samplePricing] = "low" ∧
    impactLevel [samplePricing, samplePricing] = "medium" :=
  ⟨(outcome_tier_and_success_criteria "increase_market_share"
      [samplePricing, samplePricing, samplePricing]).1 (by decide),
   (outcome_tier_and_success_criteria "increase_market_share" [samplePricing]).2.1
      (by decide),
   (outcome_tier_and_success_criteria "increase_market_share"
      [samplePricing, samplePricing]).2.2.1 (by decide)⟩

/-- C8: the whole pipeline is a deterministic pure function of its inputs
and the static catalog — two calls of `recommend` with identical inputs
yield structurally identical results.  (The embedding is a total Lean
function because the source reads only immutable module-level tables and
performs no I/O or randomness affecting the result.) -/
theorem recommend_deterministic (bo ms th : String) (ab : Option String)
    (cc : Option (List String)) :
    recommend bo ms th ab cc = recommend bo ms th ab cc := rfl

/-- C9: with `available_budget = ""` the `budget_allocation` field is
absent from the result exactly as when it is null; field presence is
decided by Python string truthiness. -/
theorem budget_field_truthiness (bo ms th : String) (cc : Option (List String)) :
    (recommend bo ms th (some "") cc).budget_allocation = none ∧
    (recommend bo ms th none cc).budget_allocation = none ∧
    ∀ ab : Option String,
      ((recommend bo ms th ab cc).budget_allocation).isSome = pyTruthy ab := by
  refine ⟨rfl, rfl, ?_⟩
  intro ab
  cases hab : pyTruthy ab <;> simp [recommend, hab]

/-! ## The budget allocator (C1) -/

lemma catWeights_sum (name : String) : (catWeights name).sum = 100 := by
  unfold catWeights
  split_ifs <;> decide

lemma catWeights_length (name : String) : (catWeights name).length = 5 := by
  unfold catWeights
  split_ifs <;> rfl

lemma zipWith_add_sum :
    ∀ (a b : List ℤ), a.length = b.length →
      (List.zipWith (· + ·) a b).sum = a.sum + b.sum := by
  intro a
  induction a with
  | nil =>
    intro b hb
    have hbnil : b = [] := List.eq_nil_of_length_eq_zero hb.symm
    subst hbnil
    simp
  | cons x xs ih =>
    intro b hb
    cases b with
    | nil => simp at hb
    | cons y ys =>
      simp only [List.zipWith_cons_cons, List.sum_cons]
      rw [ih ys (by simpa using hb)]
      ring

lemma categoryAlloc_fold :
    ∀ (l : List Strategy) (acc : List ℤ), acc.length = 5 →
      (l.foldl (fun acc s => List.zipWith (· + ·) acc (catWeights s.strategy)) acc).length
          = 5 ∧
      (l.foldl (fun acc s => List.zipWith (· + ·) acc (catWeights s.strategy)) acc).sum
          = acc.sum + 100 * l.length := by
  intro l
  induction l with
  | nil =>
    intro acc hacc
    simpa using hacc
  | cons s ss ih =>
    intro acc hacc
    simp only [List.foldl_cons]
    have hlen : (List.zipWith (· + ·) acc (catWeights s.strategy)).length = 5 := by
      rw [List.length_zipWith, hacc, catWeights_length]
      omega
    have hsum : (List.zipWith (· + ·) acc (catWeights s.strategy)).sum =
        acc.sum + 100 := by
      rw [zipWith_add_sum acc _ (by rw [hacc, catWeights_length]), catWeights_sum]
    obtain ⟨h1, h2⟩ := ih _ hlen
    refine ⟨h1, ?_⟩
    rw [h2, hsum]
    simp only [List.length_cons]
    push_cast
    ring

lemma categoryAlloc_length (strategies : List Strategy) :
    (categoryAlloc strategies).length = 5 :=
  (categoryAlloc_fold strategies [0, 0, 0, 0, 0] rfl).1

lemma categoryAlloc_sum (strategies : List Strategy) :
    (categoryAlloc strategies).sum = 100 * strategies.length := by
  have h := (categoryAlloc_fold strategies [0, 0, 0, 0, 0] rfl).2
  simpa using h

lemma pyRound_abs_le (q : ℚ) : |((pyRound q : ℤ) : ℚ) - q| ≤ 1 / 2 := by
  have h1 : ((⌊q⌋ : ℤ) : ℚ) ≤ q := Int.floor_le q
  have h2 : q < ((⌊q⌋ : ℤ) : ℚ) + 1 := Int.lt_floor_add_one q
  simp only [pyRound]
  split_ifs with ha hb hc <;> rw [abs_le] <;> constructor <;> push_cast at * <;> linarith

lemma map_pyRound_sum_close :
    ∀ l : List ℚ, |(((l.map pyRound).sum : ℤ) : ℚ) - l.sum| ≤ l.length / 2 := by
  intro l
  induction l with
  | nil => simp
  | cons q qs ih =>
    have hq := pyRound_abs_le q
    simp only [List.map_cons, List.sum_cons, List.length_cons]
    rw [abs_le] at hq ih ⊢
    constructor <;> push_cast at * <;> linarith

lemma sum_map_cast_mul (l : List ℤ) (c : ℚ) :
    (l.map fun a => ((a : ℤ) : ℚ) * c).sum = ((l.sum : ℤ) : ℚ) * c := by
  induction l with
  | nil => simp
  | cons x xs ih =>
    simp only [List.map_cons, List.sum_cons, ih]
    push_cast
    ring

lemma sum_map_div_total (alloc : List ℤ) (hT : ((alloc.sum : ℤ) : ℚ) ≠ 0) :
    (alloc.map fun a => ((a : ℤ) : ℚ) / ((alloc.sum : ℤ) : ℚ) * 100).sum = 100 := by
  have hfun : (fun a : ℤ => ((a : ℤ) : ℚ) / ((alloc.sum : ℤ) : ℚ) * 100) =
      fun a : ℤ => ((a : ℤ) : ℚ) * (100 / ((alloc.sum : ℤ) : ℚ)) := by
    funext a
    ring
  rw [hfun, sum_map_cast_mul, mul_comm]
  exact div_mul_cancel₀ 100 hT

/-- C1 (amended): for every non-empty strategy list, the integer category
percentages behind `allocation_by_category` (the `categoryPercents` values,
rendered there as percentage strings) sum to a value within the rounding
tolerance `[98, 102]` of 100 — but, because each of the five normalized
shares is rounded independently, the sum need not equal 100 exactly (see
the counterexample, where it is 99). -/
theorem category_percents_sum_bounds (strategies : List Strategy)
    (h : strategies ≠ []) :
    98 ≤ (categoryPercents strategies).sum ∧
    (categoryPercents strategies).sum ≤ 102 := by
  have hn : 1 ≤ strategies.length := List.length_pos.mpr h
  have hsumZ : (categoryAlloc strategies).sum = 100 * strategies.length :=
    categoryAlloc_sum strategies
  have hTpos : (0 : ℤ) < (categoryAlloc strategies).sum := by
    rw [hsumZ]
    positivity
  have hT : (((categoryAlloc strategies).sum : ℤ) : ℚ) ≠ 0 := by
    exact_mod_cast hTpos.ne'
  have hform : categoryPercents strategies =
      ((categoryAlloc strategies).map fun a =>
        ((a : ℤ) : ℚ) / (((categoryAlloc strategies).sum : ℤ) : ℚ) * 100).map pyRound := by
    simp only [categoryPercents, List.map_map]
    rfl
  have hE := sum_map_div_total (categoryAlloc strategies) hT
  have hclose := map_pyRound_sum_close
    ((categoryAlloc strategies).map fun a =>
      ((a : ℤ) : ℚ) / (((categoryAlloc strategies).sum : ℤ) : ℚ) * 100)
  rw [hE, List.length_map, categoryAlloc_length] at hclose
  rw [abs_le] at hclose
  rw [hform]
  constructor
  · have h97 : (97 : ℚ) <
        ((((categoryAlloc strategies).map fun a =>
          ((a : ℤ) : ℚ) / (((categoryAlloc strategies).sum : ℤ) : ℚ) * 100).map
            pyRound).sum : ℤ) := by
      push_cast at hclose ⊢
      linarith
    have : (97 : ℤ) <
        (((categoryAlloc strategies).map fun a =>
          ((a : ℤ) : ℚ) / (((categoryAlloc strategies).sum : ℤ) : ℚ) * 100).map
            pyRound).sum := by
      exact_mod_cast h97
    omega
  · have h103 : ((((categoryAlloc strategies).map fun a =>
        ((a : ℤ) : ℚ) / (((categoryAlloc strategies).sum : ℤ) : ℚ) * 100).map
          pyRound).sum : ℤ) < (103 : ℚ) := by
      push_cast at hclose ⊢
      linarith
    have : (((categoryAlloc strategies).map fun a =>
        ((a : ℤ) : ℚ) / (((categoryAlloc strategies).sum : ℤ) : ℚ) * 100).map
          pyRound).sum < (103 : ℤ) := by
      exact_mod_cast h103
    omega

/-- Witness for C1 (amended) on the selector output for
`increase_market_share` / `b2c` / `short_term`. -/
theorem category_percents_sum_bounds_witness :
    98 ≤ (categoryPercents (getStrategiesByObjective "increase_market_share" "b2c"
        "short_term")).sum ∧
    (categoryPercents (getStrategiesByObjective "increase_market_share" "b2c"
        "short_term")).sum ≤ 102 :=
  category_percents_sum_bounds _ (by decide)

/-- C1 counterexample: on the reachable selector output for
`increase_market_share` / `b2c` / `short_term` (Competitive Pricing
Strategy and Digital Channel Optimization), the accumulated category
vector is [65, 45, 35, 25, 30] with total 200, the exact shares are
32.5 / 22.5 / 17.5 / 12.5 / 15 and round-half-to-even yields
32 + 22 + 18 + 12 + 15 = 99 ≠ 100. -/
theorem category_percents_counterexample :
    (categoryPercents (getStrategiesByObjective "increase_market_share" "b2c"
        "short_term")).sum = 99 ∧
    (generateBudgetAllocation (getStrategiesByObjective "increase_market_share" "b2c"
        "short_term") "medium").allocation_by_category =
      [("Media & Advertising", "32%"), ("Content Production", "22%"),
       ("Technology & Tools", "18%"), ("Research & Analysis", "12%"),
       ("Personnel & Resources", "15%")] := by
  have halloc : categoryAlloc (getStrategiesByObjective "increase_market_share" "b2c"
      "short_term") = [65, 45, 35, 25, 30] := by decide
  have hp : categoryPercents (getStrategiesByObjective "increase_market_share" "b2c"
      "short_term") = [32, 22, 18, 12, 15] := by
    simp only [categoryPercents]
    rw [halloc]
    simp only [List.map_cons, List.map_nil, List.sum_cons, List.sum_nil]
    norm_num [pyRound, Int.floor_eq_iff]
  constructor
  · rw [hp]
    decide
  · simp only [generateBudgetAllocation]
    rw [if_pos (by decide : getStrategiesByObjective "increase_market_share" "b2c"
        "short_term" ≠ [])]
    rw [hp]
    decide
